import Mathlib

/-!
Verification development for the machine2 repository (autonomous posting,
research scheduling and reply threading driven by a remote agent).

The Python sources under scrutiny are `autonomous_poster.py`,
`autonomous_research.py`, `invoke_gauge.py` and `reply_to_post.py`.
Each section embeds one module's data model and the operations the
claims are about, as executable Lean definitions translated from the
Python source, and proves the claimed properties about them.

Modelling conventions, used throughout:
* Python strings are Lean `String`s (sequences of characters); where a
  proof needs character-level reasoning we work on `String.data`.
  Python `str.lower` is modelled by ASCII `Char.toLower`, which agrees
  with Python on ASCII input; all concrete inputs used are ASCII.
* A streamed agent invocation delivers an ordered finite sequence of
  event chunks.  The terminating sentinel (the chunk whose string form
  is "done", on which every consuming loop breaks) is modelled as the
  end of the list, so a stream value is the list of events the loop
  actually processes, plus an optional transport fault raised after
  them (a fault aborts the consuming function with an exception).
* Python exceptions are modelled with `Option`/`Except`: a `none` /
  `.error` result is a raised exception propagating to the caller.
* File side effects (attempt-log appends, record-creation calls,
  queue-document writes) are returned explicitly as values, so each
  flow is a pure function from its inputs and remote responses to its
  result together with the trace of the effects it performed.
-/

namespace Machine2

/-! ## Decoded JSON-ish Python values

`json.loads(chunk.tool_call.arguments)` yields a Python value; the parts
the poster touches are strings, lists and `None`.  `PyVal` models that
value space, with Python's truthiness and subscripting. -/

/-- A decoded Python value as produced by `json.loads` on a tool-call
argument payload: `None`, a string, or a list. -/
inductive PyVal where
  | none
  | str (s : String)
  | list (xs : List PyVal)

/-- Python truthiness for `PyVal`: `None`, `""` and `[]` are falsy. -/
def pyTruthy : PyVal → Bool
  | .none => false
  | .str s => !(s.data.isEmpty)
  | .list xs => !xs.isEmpty

/-- Python `v[0]`: the first character of a string (as a 1-character
string), the first element of a list; `none` models the raised
`IndexError` (empty string/list) or `TypeError` (`None[0]`). -/
def pyIndex0 : PyVal → Option PyVal
  | .none => Option.none
  | .str s =>
    match s.data with
    | [] => Option.none
    | c :: _ => Option.some (.str ⟨[c]⟩)
  | .list xs =>
    match xs with
    | [] => Option.none
    | x :: _ => Option.some x

/-- Python `v[:100]` is defined on strings and lists but raises
`TypeError` on `None`; this predicate captures "slicing succeeds". -/
def pySliceable : PyVal → Bool
  | .none => false
  | .str _ => true
  | .list _ => true

/-- Python `args.get(k, dflt)` on the decoded argument mapping (keys of
a decoded JSON object are unique). -/
def dictGet (args : List (String × PyVal)) (k : String) (dflt : PyVal) : PyVal :=
  match args.find? (fun p => p.fst == k) with
  | Option.some p => p.snd
  | Option.none => dflt

/-- Python `str.strip()` restricted to ASCII whitespace, applied at the
character level: drop whitespace from both ends. -/
def isPyWS (c : Char) : Bool :=
  c = ' ' || c = '\t' || c = '\n' || c = '\r' || c = '\x0b' || c = '\x0c'

/-- `str.strip()` on the character list. -/
def stripChars (l : List Char) : List Char :=
  ((l.dropWhile isPyWS).reverse.dropWhile isPyWS).reverse

/-- `str.strip()` on a string. -/
def pyStrip (s : String) : String := ⟨stripChars s.data⟩

/-! ## Agent events

One streamed chunk from the agent platform.  The Letta stream tags each
chunk with `message_type`; the consuming loops dispatch on that tag and
ignore every other tag (forward compatible).  `tool_call_message`
chunks carry a tool name and a decoded argument mapping;
`function_call_message` chunks (the tag matched by the research and
invoke modules) carry a call name; `assistant_message` chunks carry
text. -/

/-- A streamed agent event, discriminated by its `message_type` tag. -/
inductive AgentEvent where
  | reasoning (text : String)
  | toolCall (name : String) (args : List (String × PyVal))
  | functionCall (name : String)
  | assistantText (text : String)
  | functionReturn (text : String)

/-- The assistant-message texts of a stream, in arrival order. -/
def assistantTexts (events : List AgentEvent) : List String :=
  events.filterMap fun e =>
    match e with
    | .assistantText t => Option.some t
    | _ => Option.none

/-- `response_text` accumulation of `autonomous_poster.py` lines
147-155: each assistant message's text followed by a single space. -/
def joinTexts (texts : List String) : String :=
  String.join (texts.map (fun t => t ++ " "))

/-! ## Stream aggregation (`autonomous_poster.py`, lines 117-166)

`generate_autonomous_post` reduces the stream to a result dictionary:
it counts `tool_call_message` chunks, flags `posted` when the tool name
is `create_new_bluesky_post` and extracts
`json.loads(arguments).get('text', [None])[0]` as `post_content`, and
collects assistant messages whose texts are later concatenated into
`response_text`. -/

/-- The name of the designated publish tool
(`create_new_bluesky_post`). -/
def publishToolName : String := "create_new_bluesky_post"

/-- `args.get('text', [None])[0]` — the extraction performed on a
matching publish tool call (line 137); `none` is a raised exception. -/
def extractPostContent (args : List (String × PyVal)) : Option PyVal :=
  pyIndex0 (dictGet args "text" (.list [.none]))

/-- The loop state of the collection loop (lines 118-145). -/
structure AggState where
  texts : List String
  toolCalls : Nat
  posted : Bool
  postContent : PyVal

/-- Initial loop state: no messages, no tool calls, `posted = False`,
`post_content = None`. -/
def initAggState : AggState :=
  { texts := [], toolCalls := 0, posted := false, postContent := .none }

/-- One iteration of the collection loop: dispatch on the chunk's
`message_type`; a raised exception during extraction yields `none`. -/
def stepAgg (publishTool : String) (st : AggState) : AgentEvent → Option AggState
  | .toolCall name args =>
    if name = publishTool then
      match extractPostContent args with
      | Option.some pc =>
        Option.some { st with toolCalls := st.toolCalls + 1, posted := true, postContent := pc }
      | Option.none => Option.none
    else
      Option.some { st with toolCalls := st.toolCalls + 1 }
  | .assistantText t => Option.some { st with texts := st.texts ++ [t] }
  | _ => Option.some st

/-- The whole collection loop over the delivered events. -/
def runAgg (publishTool : String) (st : AggState) : List AgentEvent → Option AggState
  | [] => Option.some st
  | e :: es =>
    match stepAgg publishTool st e with
    | Option.some st' => runAgg publishTool st' es
    | Option.none => Option.none

/-- The aggregation outcome (`result` dictionary of lines 160-166). -/
structure AgentOutcome where
  success : Bool
  posted : Bool
  content : PyVal
  response : String
  tool_calls : Nat

/-- Lines 147-166: build the result from the final loop state.
`content` is `post_content or response_text.strip()` (Python `or`:
the fallback applies whenever `post_content` is falsy). -/
def mkOutcome (st : AggState) (dryRun : Bool) : AgentOutcome :=
  let response_text := joinTexts st.texts
  { success := st.posted || dryRun
    posted := st.posted
    content := if pyTruthy st.postContent then st.postContent else .str (pyStrip response_text)
    response := pyStrip response_text
    tool_calls := st.toolCalls }

/-- The stream aggregation of `generate_autonomous_post` (lines
117-166): reduce the delivered events to the outcome; `none` is an
exception raised while consuming the stream. -/
def aggregate (publishTool : String) (events : List AgentEvent) (dryRun : Bool) :
    Option AgentOutcome :=
  match runAgg publishTool initAggState events with
  | Option.some st => Option.some (mkOutcome st dryRun)
  | Option.none => Option.none

/-! Helper views of a stream, used to state the claims. -/

/-- Does the stream contain a `tool_call_message` whose tool name is
the publish tool? -/
def hasPublishCall (publishTool : String) (events : List AgentEvent) : Bool :=
  events.any fun e =>
    match e with
    | .toolCall name _ => name == publishTool
    | _ => false

/-- The value `post_content` holds after the loop: the extraction of
the last matching publish call, threaded left to right (`acc` is kept
where extraction would raise; under a successful run every extraction
succeeded, so the default is never used). -/
def lastPublishContent (publishTool : String) (acc : PyVal) :
    List AgentEvent → PyVal
  | [] => acc
  | .toolCall name args :: es =>
    if name = publishTool then
      lastPublishContent publishTool ((extractPostContent args).getD acc) es
    else
      lastPublishContent publishTool acc es
  | _ :: es => lastPublishContent publishTool acc es

/-- Number of `tool_call_message` chunks in the stream. -/
def countToolCalls (events : List AgentEvent) : Nat :=
  events.countP fun e =>
    match e with
    | .toolCall _ _ => true
    | _ => false

theorem runAgg_spec (publishTool : String) :
    ∀ (events : List AgentEvent) (st st' : AggState),
      runAgg publishTool st events = Option.some st' →
      st'.posted = (st.posted || hasPublishCall publishTool events) ∧
      st'.texts = st.texts ++ assistantTexts events ∧
      st'.postContent = lastPublishContent publishTool st.postContent events ∧
      st'.toolCalls = st.toolCalls + countToolCalls events := by
  intro events
  induction events with
  | nil =>
    intro st st' h
    simp only [runAgg] at h
    cases h
    simp [hasPublishCall, assistantTexts, lastPublishContent, countToolCalls]
  | cons e es ih =>
    intro st st' h
    cases e with
    | toolCall name args =>
      by_cases hname : name = publishTool
      · simp only [runAgg, stepAgg, hname, if_pos rfl] at h
        cases hpc : extractPostContent args with
        | none => rw [hpc] at h; exact absurd h (by simp)
        | some pc =>
          rw [hpc] at h
          obtain ⟨h1, h2, h3, h4⟩ := ih _ _ h
          refine ⟨?_, ?_, ?_, ?_⟩
          · simp [h1, hasPublishCall, hname, beq_iff_eq]
          · simpa [assistantTexts] using h2
          · simp [h3, lastPublishContent, hname, hpc]
          · simp [h4, countToolCalls]; omega
      · simp only [runAgg, stepAgg, if_neg hname] at h
        obtain ⟨h1, h2, h3, h4⟩ := ih _ _ h
        have hb : (name == publishTool) = false := beq_eq_false_iff_ne.mpr hname
        refine ⟨?_, ?_, ?_, ?_⟩
        · simp [h1, hasPublishCall, hb]
        · simpa [assistantTexts] using h2
        · simp [h3, lastPublishContent, hname]
        · simp [h4, countToolCalls]; omega
    | assistantText t =>
      simp only [runAgg, stepAgg] at h
      obtain ⟨h1, h2, h3, h4⟩ := ih _ _ h
      refine ⟨?_, ?_, ?_, ?_⟩
      · simpa [hasPublishCall] using h1
      · simp [h2, assistantTexts]
      · simpa [lastPublishContent] using h3
      · simpa [countToolCalls] using h4
    | reasoning t =>
      simp only [runAgg, stepAgg] at h
      obtain ⟨h1, h2, h3, h4⟩ := ih _ _ h
      exact ⟨by simpa [hasPublishCall] using h1, by simpa [assistantTexts] using h2,
        by simpa [lastPublishContent] using h3, by simpa [countToolCalls] using h4⟩
    | functionCall n =>
      simp only [runAgg, stepAgg] at h
      obtain ⟨h1, h2, h3, h4⟩ := ih _ _ h
      exact ⟨by simpa [hasPublishCall] using h1, by simpa [assistantTexts] using h2,
        by simpa [lastPublishContent] using h3, by simpa [countToolCalls] using h4⟩
    | functionReturn t =>
      simp only [runAgg, stepAgg] at h
      obtain ⟨h1, h2, h3, h4⟩ := ih _ _ h
      exact ⟨by simpa [hasPublishCall] using h1, by simpa [assistantTexts] using h2,
        by simpa [lastPublishContent] using h3, by simpa [countToolCalls] using h4⟩

theorem runAgg_total_of_no_publish (publishTool : String) :
    ∀ (events : List AgentEvent) (st : AggState),
      hasPublishCall publishTool events = false →
      ∃ st', runAgg publishTool st events = Option.some st' := by
  intro events
  induction events with
  | nil => intro st _; exact ⟨st, rfl⟩
  | cons e es ih =>
    intro st hno
    cases e with
    | toolCall name args =>
      have hno' := hno
      simp only [hasPublishCall, List.any_cons, Bool.or_eq_false_iff, beq_iff_eq] at hno'
      have hname : ¬ name = publishTool := by
        intro hc
        exact absurd hc (by simpa using hno'.1)
      have hrest : hasPublishCall publishTool es = false := by
        simpa [hasPublishCall] using hno'.2
      obtain ⟨st', hst'⟩ := ih { st with toolCalls := st.toolCalls + 1 } hrest
      exact ⟨st', by simp [runAgg, stepAgg, if_neg hname, hst']⟩
    | assistantText t =>
      have hrest : hasPublishCall publishTool es = false := by
        simpa [hasPublishCall] using hno
      obtain ⟨st', hst'⟩ := ih { st with texts := st.texts ++ [t] } hrest
      exact ⟨st', by simp [runAgg, stepAgg, hst']⟩
    | reasoning t =>
      have hrest : hasPublishCall publishTool es = false := by
        simpa [hasPublishCall] using hno
      obtain ⟨st', hst'⟩ := ih st hrest
      exact ⟨st', by simp [runAgg, stepAgg, hst']⟩
    | functionCall n =>
      have hrest : hasPublishCall publishTool es = false := by
        simpa [hasPublishCall] using hno
      obtain ⟨st', hst'⟩ := ih st hrest
      exact ⟨st', by simp [runAgg, stepAgg, hst']⟩
    | functionReturn t =>
      have hrest : hasPublishCall publishTool es = false := by
        simpa [hasPublishCall] using hno
      obtain ⟨st', hst'⟩ := ih st hrest
      exact ⟨st', by simp [runAgg, stepAgg, hst']⟩

theorem lastPublishContent_of_no_publish (pt : String) :
    ∀ (events : List AgentEvent) (acc : PyVal),
      hasPublishCall pt events = false → lastPublishContent pt acc events = acc := by
  intro events
  induction events with
  | nil => intro acc _; rfl
  | cons e es ih =>
    intro acc hno
    cases e with
    | toolCall name args =>
      have hno' := hno
      simp only [hasPublishCall, List.any_cons, Bool.or_eq_false_iff, beq_iff_eq] at hno'
      have hname : ¬ name = pt := by
        intro hc
        exact absurd hc (by simpa using hno'.1)
      have hrest : hasPublishCall pt es = false := by
        simpa [hasPublishCall] using hno'.2
      simp [lastPublishContent, if_neg hname, ih _ hrest]
    | assistantText t =>
      exact ih _ (by simpa [hasPublishCall] using hno)
    | reasoning t =>
      exact ih _ (by simpa [hasPublishCall] using hno)
    | functionCall n =>
      exact ih _ (by simpa [hasPublishCall] using hno)
    | functionReturn t =>
      exact ih _ (by simpa [hasPublishCall] using hno)

/-! ## Claims C1 and C2: the aggregation outcome -/

/-- Concrete stream refuting C1: one publish tool call whose decoded
arguments map "text" to the string "hi". -/
def c1CounterStream : List AgentEvent :=
  [AgentEvent.toolCall "create_new_bluesky_post" [("text", PyVal.str "hi")]]

/-- C1 (counterexample). The claim says the outcome's content equals
the first textual argument of the publish tool call.  On a stream with
one matching call whose "text" argument is the string "hi", the code
(`args.get('text', [None])[0]`, autonomous_poster.py line 137) stores
only the first character: `published` is true but content is "h", not
the call's textual argument "hi". -/
theorem C1_counterexample :
    (aggregate publishToolName c1CounterStream false).map
        (fun o => (o.posted, o.content)) =
      Option.some (true, PyVal.str "h") ∧
    PyVal.str "h" ≠ PyVal.str "hi" := by
  constructor
  · rfl
  · intro h
    injection h with h'
    exact absurd h' (by decide)

/-- C1 (amended). For every event stream whose delivered events contain
a publish tool call and whose aggregation completes without an
exception: `published` is true, and content equals the value extracted
from the last matching call's "text" argument by `[0]`-indexing (its
first character when a string, its first element when a list) unless
that value is falsy (missing, `None`, or empty), in which case content
falls back to the concatenated assistant text, stripped. -/
theorem C1_amended (events : List AgentEvent) (dryRun : Bool) (o : AgentOutcome)
    (hagg : aggregate publishToolName events dryRun = Option.some o)
    (hpub : hasPublishCall publishToolName events = true) :
    o.posted = true ∧
    o.content =
      (if pyTruthy (lastPublishContent publishToolName PyVal.none events) then
        lastPublishContent publishToolName PyVal.none events
      else PyVal.str (pyStrip (joinTexts (assistantTexts events)))) := by
  unfold aggregate at hagg
  cases hrun : runAgg publishToolName initAggState events with
  | none => rw [hrun] at hagg; exact absurd hagg (by simp)
  | some st =>
    rw [hrun] at hagg
    obtain ⟨h1, h2, h3, h4⟩ := runAgg_spec _ _ _ _ hrun
    have ho : o = mkOutcome st dryRun := by
      injection hagg with h; exact h.symm
    subst ho
    constructor
    · simp [mkOutcome, h1, initAggState, hpub]
    · simp [mkOutcome, h3, h2, initAggState]

/-- Stream for the C1 witness: assistant text before and after a
publish call whose "text" argument is a list of strings. -/
def c1WitnessStream : List AgentEvent :=
  [AgentEvent.assistantText "before",
   AgentEvent.toolCall "create_new_bluesky_post" [("text", PyVal.list [PyVal.str "the post"])],
   AgentEvent.assistantText "after"]

/-- Witness for C1 (amended) at a concrete stream: the publish call's
extracted value "the post" overrides the surrounding assistant text. -/
theorem C1_amended_witness :
    ∃ o, aggregate publishToolName c1WitnessStream false = Option.some o ∧
      o.posted = true ∧
      o.content =
        (if pyTruthy (lastPublishContent publishToolName PyVal.none c1WitnessStream) then
          lastPublishContent publishToolName PyVal.none c1WitnessStream
        else PyVal.str (pyStrip (joinTexts (assistantTexts c1WitnessStream)))) :=
  ⟨_, rfl, C1_amended c1WitnessStream false _ rfl rfl⟩

/-- C2. For every event stream the completed aggregation satisfies
`success = posted || dry_run`; and when no tool call matches the
publish tool name, aggregation always completes, `published` is false,
`success` equals `dry_run` (so it is false when simulate-only is off,
true when it is on), and content is the assistant texts joined in
arrival order and stripped (the `response_text.strip()` fallback of
autonomous_poster.py lines 147-166). -/
theorem C2_aggregate_success (pt : String) (events : List AgentEvent) (dryRun : Bool) :
    (∀ o, aggregate pt events dryRun = Option.some o → o.success = (o.posted || dryRun)) ∧
    (hasPublishCall pt events = false →
      ∃ o, aggregate pt events dryRun = Option.some o ∧
        o.posted = false ∧ o.success = dryRun ∧
        o.content = PyVal.str (pyStrip (joinTexts (assistantTexts events)))) := by
  constructor
  · intro o hagg
    unfold aggregate at hagg
    cases hrun : runAgg pt initAggState events with
    | none => rw [hrun] at hagg; exact absurd hagg (by simp)
    | some st =>
      rw [hrun] at hagg
      have ho : o = mkOutcome st dryRun := by
        injection hagg with h; exact h.symm
      subst ho
      rfl
  · intro hno
    obtain ⟨st, hst⟩ := runAgg_total_of_no_publish pt events initAggState hno
    obtain ⟨h1, h2, h3, h4⟩ := runAgg_spec _ _ _ _ hst
    refine ⟨mkOutcome st dryRun, by simp [aggregate, hst], ?_, ?_, ?_⟩
    · simp [mkOutcome, h1, initAggState, hno]
    · simp [mkOutcome, h1, initAggState, hno]
    · have hpc : st.postContent = PyVal.none := by
        rw [h3, initAggState, lastPublishContent_of_no_publish pt events PyVal.none hno]
      simp [mkOutcome, hpc, pyTruthy, h2, initAggState]

/-- Witness for C2 at a concrete stream: two assistant texts and a
non-matching tool call, in simulate-only mode. -/
theorem C2_aggregate_success_witness :
    ∃ o, aggregate publishToolName
          [AgentEvent.assistantText "hello", AgentEvent.functionCall "web_search",
           AgentEvent.assistantText "world"] true = Option.some o ∧
        o.posted = false ∧ o.success = true ∧ o.content = PyVal.str "hello world" := by
  obtain ⟨o, ho, h1, h2, h3⟩ :=
    (C2_aggregate_success publishToolName
      [AgentEvent.assistantText "hello", AgentEvent.functionCall "web_search",
       AgentEvent.assistantText "world"] true).2 rfl
  exact ⟨o, ho, h1, h2, by rw [h3]; rfl⟩

/-! ## Topic queue (`autonomous_research.py`)

A topic is a flat record; the queue document holds two ordered topic
lists.  The persisted document is modelled as a JSON tree (`Jsonv`);
the textual rendering performed by `json.dump` / `json.load` belongs to
the Python standard library (an external collaborator) and is not
re-modelled: `save_topics` produces the document tree the module
writes, and the decoding functions capture the dictionary-shape
assumptions (`topics['active']`, `t['priority']`, ...) the rest of the
module makes when reading it back. -/

/-- A research topic (the dict of `autonomous_research.py` lines
113-119). -/
structure Topic where
  id : String
  title : String
  description : String
  priority : String
  last_researched : Option String
  deriving Repr, DecidableEq

/-- The queue document: active and completed topic lists. -/
structure TopicQueue where
  active : List Topic
  completed : List Topic
  deriving Repr, DecidableEq

/-- A JSON document tree. -/
inductive Jsonv where
  | null
  | str (s : String)
  | arr (xs : List Jsonv)
  | obj (fields : List (String × Jsonv))

/-- Key lookup in a decoded JSON object. -/
def jGet (fields : List (String × Jsonv)) (k : String) : Option Jsonv :=
  (fields.find? (fun p => p.fst == k)).map (fun p => p.snd)

/-- A topic as written into the queue document. -/
def encodeTopic (t : Topic) : Jsonv :=
  .obj [("id", .str t.id), ("title", .str t.title),
        ("description", .str t.description), ("priority", .str t.priority),
        ("last_researched",
          match t.last_researched with
          | Option.none => .null
          | Option.some s => .str s)]

/-- Read a JSON string field. -/
def asStr : Option Jsonv → Option String
  | Option.some (.str s) => Option.some s
  | _ => Option.none

/-- Read a JSON string-or-null field. -/
def asOptStr : Option Jsonv → Option (Option String)
  | Option.some .null => Option.some Option.none
  | Option.some (.str s) => Option.some (Option.some s)
  | _ => Option.none

/-- Read a JSON array field. -/
def asArr : Option Jsonv → Option (List Jsonv)
  | Option.some (.arr xs) => Option.some xs
  | _ => Option.none

/-- Interpret a document node as a topic (the field accesses the
module performs on a loaded topic dict). -/
def decodeTopic (j : Jsonv) : Option Topic :=
  match j with
  | .obj fs => do
    let id ← asStr (jGet fs "id")
    let title ← asStr (jGet fs "title")
    let description ← asStr (jGet fs "description")
    let priority ← asStr (jGet fs "priority")
    let lr ← asOptStr (jGet fs "last_researched")
    pure ⟨id, title, description, priority, lr⟩
  | _ => Option.none

/-- Interpret each document node of a list as a topic. -/
def decodeTopics : List Jsonv → Option (List Topic)
  | [] => Option.some []
  | j :: js => do
    let t ← decodeTopic j
    let ts ← decodeTopics js
    pure (t :: ts)

/-- Interpret a document as a topic queue. -/
def decodeQueue (j : Jsonv) : Option TopicQueue :=
  match j with
  | .obj fs => do
    let a ← asArr (jGet fs "active")
    let c ← asArr (jGet fs "completed")
    let active ← decodeTopics a
    let completed ← decodeTopics c
    pure ⟨active, completed⟩
  | _ => Option.none

/-- `save_topics` (lines 99-103): write the queue document. -/
def save_topics (q : TopicQueue) : Jsonv :=
  .obj [("active", .arr (q.active.map encodeTopic)),
        ("completed", .arr (q.completed.map encodeTopic))]

/-- The default topic set seeded on first access (lines 48-87). -/
def defaultQueue : TopicQueue :=
  { active :=
      [⟨"asi-alignment", "ASI Alignment and Safety Research",
        "Latest developments in AI safety, alignment, and superintelligence",
        "high", Option.none⟩,
       ⟨"vr-computation", "VR and Computational Interfaces",
        "Virtual reality, spatial computing, and new interaction paradigms",
        "high", Option.none⟩,
       ⟨"math-ai", "Mathematical Foundations of AI",
        "Theoretical underpinnings, information theory, optimization",
        "medium", Option.none⟩,
       ⟨"cypherpunk", "Cypherpunk and Digital Autonomy",
        "Privacy, cryptography, digital freedom, decentralization",
        "medium", Option.none⟩,
       ⟨"data-science-methods", "Advanced Data Science Methods",
        "Novel techniques, probabilistic programming, causal inference",
        "low", Option.none⟩],
    completed := [] }

/-- `load_topics` (lines 42-96): a missing document is seeded with the
defaults and written back; an existing document is read.  The input is
the stored document (`none` = no file yet); the output is the loaded
queue (`none` = a malformed document, a raised exception in Python)
together with the stored document afterwards. -/
def load_topics (store : Option Jsonv) : Option TopicQueue × Option Jsonv :=
  match store with
  | Option.none => (Option.some defaultQueue, Option.some (save_topics defaultQueue))
  | Option.some j => (decodeQueue j, Option.some j)

/-- `add_topic` (lines 106-125) applied to the loaded queue: build the
new topic with the slug id `title.lower().replace(' ', '-')[:50]`,
append it to `active`, and persist; the result is the new topic, the
updated queue and the document written by the immediate save. -/
def topicIdOf (title : String) : String :=
  ⟨((title.data.map Char.toLower).map (fun c => if c = ' ' then '-' else c)).take 50⟩

/-- `add_topic` (lines 106-125). -/
def add_topic (q : TopicQueue) (title description priority : String) :
    Topic × TopicQueue × Jsonv :=
  let new_topic : Topic := ⟨topicIdOf title, title, description, priority, Option.none⟩
  let q' : TopicQueue := { q with active := q.active ++ [new_topic] }
  (new_topic, q', save_topics q')

/-! ## Next-topic selection (`run_research_cycle`, lines 275-290) -/

/-- `priority_order.get(t['priority'], 3)` (line 280 with line 284):
unrecognized priorities rank 3. -/
def priorityRank (p : String) : Nat :=
  if p = "high" then 0 else if p = "medium" then 1 else if p = "low" then 2 else 3

/-- `t['last_researched'] or '1970-01-01'` (line 285): Python `or`
replaces a falsy value (`None` or the empty string) by the sentinel. -/
def lastResearchedKey (t : Topic) : String :=
  match t.last_researched with
  | Option.none => "1970-01-01"
  | Option.some s => if s = "" then "1970-01-01" else s

/-- The two-component sort key of lines 283-286. -/
def sortKey (t : Topic) : Nat × String :=
  (priorityRank t.priority, lastResearchedKey t)

/-- Python string comparison: lexicographic on code points. -/
def charListLe : List Char → List Char → Bool
  | [], _ => true
  | _ :: _, [] => false
  | a :: as, b :: bs => a < b || (a = b && charListLe as bs)

/-- `s <= t` on Python strings. -/
def strLe (s t : String) : Bool := charListLe s.data t.data

/-- Python tuple comparison: lexicographic on the two components. -/
def keyLe (a b : Nat × String) : Bool :=
  a.1 < b.1 || (a.1 = b.1 && strLe a.2 b.2)

/-- Stable insertion step: place `a` before the first element it is
`keyLe`-below. -/
def orderedInsert (a : Topic) : List Topic → List Topic
  | [] => [a]
  | b :: l => if keyLe (sortKey a) (sortKey b) then a :: b :: l else b :: orderedInsert a l

/-- Python's `sorted(topics['active'], key=...)` is a stable sort by
the key; a stable sort by a total preorder is unique, so it is
modelled by stable insertion sort. -/
def sortTopics : List Topic → List Topic
  | [] => []
  | a :: l => orderedInsert a (sortTopics l)

/-- Next-topic selection of `run_research_cycle` (lines 275-290):
return early when `active` is empty, else pick `sorted_topics[0]`. -/
def select_next (active : List Topic) : Option Topic :=
  match active with
  | [] => Option.none
  | _ => (sortTopics active).head?

/-- The first element of the list attaining the minimal sort key. -/
def firstMinTopic : List Topic → Option Topic
  | [] => Option.none
  | a :: l =>
    match firstMinTopic l with
    | Option.none => Option.some a
    | Option.some b => Option.some (if keyLe (sortKey a) (sortKey b) then a else b)

theorem charListLe_refl : ∀ (l : List Char), charListLe l l = true := by
  intro l
  induction l with
  | nil => rfl
  | cons a as ih => simp [charListLe, ih]

theorem charListLe_total : ∀ (a b : List Char),
    charListLe a b = true ∨ charListLe b a = true := by
  intro a
  induction a with
  | nil => intro b; exact Or.inl rfl
  | cons x xs ih =>
    intro b
    cases b with
    | nil => exact Or.inr rfl
    | cons y ys =>
      rcases lt_trichotomy x y with h | h | h
      · exact Or.inl (by simp [charListLe, h])
      · subst h
        rcases ih ys with h2 | h2
        · exact Or.inl (by simp [charListLe, h2])
        · exact Or.inr (by simp [charListLe, h2])
      · exact Or.inr (by simp [charListLe, h])

theorem charListLe_trans : ∀ (a b c : List Char),
    charListLe a b = true → charListLe b c = true → charListLe a c = true := by
  intro a
  induction a with
  | nil => intro b c _ _; rfl
  | cons x xs ih =>
    intro b c hab hbc
    cases b with
    | nil => exact absurd hab (by simp [charListLe])
    | cons y ys =>
      cases c with
      | nil => exact absurd hbc (by simp [charListLe])
      | cons z zs =>
        simp only [charListLe, Bool.or_eq_true, Bool.and_eq_true, decide_eq_true_eq] at hab hbc ⊢
        rcases hab with h1 | ⟨h1, h1'⟩ <;> rcases hbc with h2 | ⟨h2, h2'⟩
        · exact Or.inl (h1.trans h2)
        · exact Or.inl (h2 ▸ h1)
        · exact Or.inl (h1 ▸ h2)
        · exact Or.inr ⟨h1.trans h2, ih ys zs h1' h2'⟩

theorem keyLe_iff (a b : Nat × String) :
    keyLe a b = true ↔ (a.1 < b.1 ∨ (a.1 = b.1 ∧ strLe a.2 b.2 = true)) := by
  simp [keyLe]

theorem keyLe_refl (a : Nat × String) : keyLe a a = true := by
  simp [keyLe_iff, strLe, charListLe_refl]

theorem keyLe_total (a b : Nat × String) : keyLe a b = true ∨ keyLe b a = true := by
  rw [keyLe_iff, keyLe_iff]
  rcases Nat.lt_trichotomy a.1 b.1 with h | h | h
  · exact Or.inl (Or.inl h)
  · rcases charListLe_total a.2.data b.2.data with h2 | h2
    · exact Or.inl (Or.inr ⟨h, h2⟩)
    · exact Or.inr (Or.inr ⟨h.symm, h2⟩)
  · exact Or.inr (Or.inl h)

theorem keyLe_trans {a b c : Nat × String}
    (hab : keyLe a b = true) (hbc : keyLe b c = true) : keyLe a c = true := by
  rw [keyLe_iff] at hab hbc ⊢
  rcases hab with h1 | ⟨h1, h1'⟩ <;> rcases hbc with h2 | ⟨h2, h2'⟩
  · exact Or.inl (h1.trans h2)
  · exact Or.inl (h2 ▸ h1)
  · exact Or.inl (h1 ▸ h2)
  · exact Or.inr ⟨h1.trans h2, charListLe_trans _ _ _ h1' h2'⟩

theorem firstMinTopic_eq_none :
    ∀ (l : List Topic), firstMinTopic l = Option.none ↔ l = [] := by
  intro l
  cases l with
  | nil => simp [firstMinTopic]
  | cons a l =>
    simp only [firstMinTopic]
    cases firstMinTopic l <;> simp

theorem sortTopics_head :
    ∀ (l : List Topic), (sortTopics l).head? = firstMinTopic l := by
  intro l
  induction l with
  | nil => rfl
  | cons a l ih =>
    simp only [sortTopics, firstMinTopic]
    cases hs : sortTopics l with
    | nil =>
      rw [hs] at ih
      rw [← ih]
      rfl
    | cons b t =>
      rw [hs] at ih
      rw [← ih]
      simp only [orderedInsert, List.head?]
      by_cases hk : keyLe (sortKey a) (sortKey b) = true
      · rw [if_pos hk, if_pos hk]
      · rw [if_neg hk, if_neg hk]

theorem firstMinTopic_spec :
    ∀ (l : List Topic) (t : Topic), firstMinTopic l = Option.some t →
      ∃ pre post, l = pre ++ t :: post ∧
        (∀ u ∈ l, keyLe (sortKey t) (sortKey u) = true) ∧
        (∀ u ∈ pre, keyLe (sortKey u) (sortKey t) = false) := by
  intro l
  induction l with
  | nil => intro t h; exact absurd h (by simp [firstMinTopic])
  | cons a l ih =>
    intro t h
    simp only [firstMinTopic] at h
    cases hl : firstMinTopic l with
    | none =>
      rw [hl] at h
      have hlnil : l = [] := (firstMinTopic_eq_none l).mp hl
      subst hlnil
      injection h with h'
      subst h'
      exact ⟨[], [], rfl, by simp [keyLe_refl], by simp⟩
    | some b =>
      rw [hl] at h
      replace h : Option.some (if keyLe (sortKey a) (sortKey b) then a else b) = Option.some t := h
      obtain ⟨pre, post, hsplit, hmin, hfirst⟩ := ih b hl
      by_cases hk : keyLe (sortKey a) (sortKey b) = true
      · rw [if_pos hk] at h
        injection h with h'
        subst h'
        refine ⟨[], l, rfl, ?_, by simp⟩
        intro u hu
        rcases List.mem_cons.mp hu with hu | hu
        · subst hu; exact keyLe_refl _
        · exact keyLe_trans hk (hmin u hu)
      · rw [if_neg hk] at h
        injection h with h'
        subst h'
        refine ⟨a :: pre, post, by rw [hsplit]; rfl, ?_, ?_⟩
        · intro u hu
          rcases List.mem_cons.mp hu with hu | hu
          · subst hu
            rcases keyLe_total (sortKey b) (sortKey u) with hle | hle
            · exact hle
            · exact absurd hle hk
          · exact hmin u hu
        · intro u hu
          rcases List.mem_cons.mp hu with hu | hu
          · subst hu
            exact Bool.eq_false_iff.mpr hk
          · exact hfirst u hu

theorem decodeTopic_encodeTopic (t : Topic) :
    decodeTopic (encodeTopic t) = Option.some t := by
  cases t with
  | mk id title description priority lr => cases lr <;> rfl

theorem decodeTopics_encode (ts : List Topic) :
    decodeTopics (ts.map encodeTopic) = Option.some ts := by
  induction ts with
  | nil => rfl
  | cons t ts ih =>
    simp [decodeTopics, decodeTopic_encodeTopic, ih]

/-! ## Claims C3, C8, C9, C10 -/

/-- Topic never researched, high priority, placed second. -/
def c3TopicA : Topic := ⟨"a", "A", "", "high", Option.none⟩

/-- Topic of the same priority researched before the epoch sentinel. -/
def c3TopicOld : Topic := ⟨"b", "B", "", "high", Option.some "1969-06-01"⟩

/-- C3 (counterexample). The claim orders a missing `last_researched`
earliest, so the never-researched topic A should win within the same
priority.  The code substitutes the sentinel '1970-01-01' for a
missing timestamp (autonomous_research.py line 285), so a topic
researched before the sentinel — here '1969-06-01' — is selected over
the never-researched topic A of equal priority. -/
theorem C3_counterexample :
    select_next [c3TopicOld, c3TopicA] = Option.some c3TopicOld ∧
    c3TopicOld.last_researched ≠ Option.none ∧
    c3TopicA ∈ [c3TopicOld, c3TopicA] ∧
    c3TopicA.priority = c3TopicOld.priority ∧
    c3TopicA.last_researched = Option.none ∧
    c3TopicOld ≠ c3TopicA := by
  refine ⟨rfl, by decide, by decide, rfl, rfl, by decide⟩

/-- The instance topics of the claim: A high never researched, B high
researched yesterday (a post-1970 date), C low never researched. -/
def c3InstA : Topic := ⟨"a", "A", "", "high", Option.none⟩

/-- Instance topic B. -/
def c3InstB : Topic := ⟨"b", "B", "", "high", Option.some "2026-10-11T09:00:00"⟩

/-- Instance topic C. -/
def c3InstC : Topic := ⟨"c", "C", "", "low", Option.none⟩

/-- C3 (amended). Selection returns none on the empty active list;
otherwise it returns the first element under the code's two-key order
(priority rank, then the `last_researched` string with the sentinel
'1970-01-01' substituted for a missing or empty timestamp): the
selected topic's key is minimal over the whole list and every topic
before it in the list has a strictly greater key.  Never-researched
topics are hence preferred within a priority over topics researched
after the sentinel — as in the {A, B, C} instance, which selects A —
but not over topics researched before it. -/
theorem C3_amended :
    select_next [] = Option.none ∧
    (∀ (l : List Topic) (t : Topic), select_next l = Option.some t →
      ∃ pre post, l = pre ++ t :: post ∧
        (∀ u ∈ l, keyLe (sortKey t) (sortKey u) = true) ∧
        (∀ u ∈ pre, keyLe (sortKey u) (sortKey t) = false)) ∧
    select_next [c3InstA, c3InstB, c3InstC] = Option.some c3InstA := by
  refine ⟨rfl, ?_, rfl⟩
  intro l t hsel
  have hfm : firstMinTopic l = Option.some t := by
    cases l with
    | nil => exact absurd hsel (by simp [select_next])
    | cons a l' => rw [← sortTopics_head]; exact hsel
  exact firstMinTopic_spec l t hfm

/-- Witness for C3 (amended), applying it to the concrete instance
queue: A splits the list with no earlier element and a minimal key. -/
theorem C3_amended_witness :
    ∃ pre post, ([c3InstA, c3InstB, c3InstC] : List Topic) = pre ++ c3InstA :: post ∧
      (∀ u ∈ ([c3InstA, c3InstB, c3InstC] : List Topic),
        keyLe (sortKey c3InstA) (sortKey u) = true) ∧
      (∀ u ∈ pre, keyLe (sortKey u) (sortKey c3InstA) = false) :=
  C3_amended.2.1 [c3InstA, c3InstB, c3InstC] c3InstA rfl

/-- C8 (counterexample). The claim says whitespace in the title is
replaced by the separator.  `add_topic` only replaces the space
character (`title.lower().replace(' ', '-')`, line 111): a title with
an embedded newline keeps the newline in its id, where the claimed
whitespace replacement would produce a dash. -/
theorem C8_counterexample :
    (add_topic ⟨[], []⟩ "Quantum\nComputing" "" "medium").1.id = "quantum\ncomputing" ∧
    ⟨((("Quantum\nComputing" : String).data.map Char.toLower).map
        (fun c => if c.isWhitespace then '-' else c)).take 50⟩ = ("quantum-computing" : String) ∧
    ("quantum\ncomputing" : String) ≠ "quantum-computing" := by
  refine ⟨rfl, rfl, by decide⟩

/-- C8 (amended). For every loaded queue, title, description and
priority, `add_topic` creates a topic whose id is the title lowercased
(ASCII) with each space character replaced by '-' and truncated to 50
characters, leaves every other field as given with no
`last_researched`, appends the topic to the active list keeping the
rest of the queue, and immediately persists the updated queue
document. -/
theorem C8_amended (q : TopicQueue) (title description priority : String) :
    (add_topic q title description priority).1.id = topicIdOf title ∧
    (add_topic q title description priority).1.id.data =
      ((title.data.map Char.toLower).map (fun c => if c = ' ' then '-' else c)).take 50 ∧
    (add_topic q title description priority).1.id.data.length ≤ 50 ∧
    (add_topic q title description priority).1.title = title ∧
    (add_topic q title description priority).1.description = description ∧
    (add_topic q title description priority).1.priority = priority ∧
    (add_topic q title description priority).1.last_researched = Option.none ∧
    (add_topic q title description priority).2.1.active =
      q.active ++ [(add_topic q title description priority).1] ∧
    (add_topic q title description priority).2.1.completed = q.completed ∧
    (add_topic q title description priority).2.2 =
      save_topics (add_topic q title description priority).2.1 := by
  refine ⟨rfl, rfl, ?_, rfl, rfl, rfl, rfl, rfl, rfl, rfl⟩
  show (((title.data.map Char.toLower).map (fun c => if c = ' ' then '-' else c)).take 50).length ≤ 50
  calc (((title.data.map Char.toLower).map (fun c => if c = ' ' then '-' else c)).take 50).length
      ≤ 50 := by
        rw [List.length_take]
        exact Nat.min_le_left _ _

/-- C9. Saving any topic queue and loading the saved document
reproduces the identical queue, leaving the stored document as
written: the save-then-load round trip is the identity. -/
theorem C9_save_load_roundtrip (q : TopicQueue) :
    load_topics (Option.some (save_topics q)) =
      (Option.some q, Option.some (save_topics q)) := by
  cases q with
  | mk active completed =>
    simp [load_topics, save_topics, decodeQueue, jGet, asArr, decodeTopics_encode]

/-- C10. An unrecognized priority string receives sort rank 3, strictly
after the rank of 'low'; consequently whenever selection picks a topic
of unrecognized priority, no active topic has a recognized priority. -/
theorem C10_unrecognized_priority (p : String)
    (hp : p ≠ "high" ∧ p ≠ "medium" ∧ p ≠ "low") :
    priorityRank p = 3 ∧
    priorityRank "low" < priorityRank p ∧
    (∀ (l : List Topic) (t : Topic), select_next l = Option.some t →
      priorityRank t.priority = 3 →
      ∀ u ∈ l, u.priority ≠ "high" ∧ u.priority ≠ "medium" ∧ u.priority ≠ "low") := by
  obtain ⟨h1, h2, h3⟩ := hp
  have hrank : priorityRank p = 3 := by simp [priorityRank, h1, h2, h3]
  refine ⟨hrank, by rw [hrank]; simp [priorityRank], ?_⟩
  intro l t hsel ht u hu
  obtain ⟨pre, post, hsplit, hmin, _⟩ := C3_amended.2.1 l t hsel
  have hle := hmin u hu
  rw [keyLe_iff] at hle
  have hu3 : priorityRank u.priority = 3 := by
    have hb : priorityRank u.priority ≤ 3 := by
      unfold priorityRank
      repeat' split
      all_goals omega
    rcases hle with hlt | ⟨heq, _⟩
    · simp only [sortKey, ht] at hlt; omega
    · simp only [sortKey, ht] at heq; omega
  refine ⟨?_, ?_, ?_⟩
  · intro hc; rw [hc] at hu3; simp [priorityRank] at hu3
  · intro hc; rw [hc] at hu3; simp [priorityRank] at hu3
  · intro hc; rw [hc] at hu3; simp [priorityRank] at hu3

/-- Topic with an unrecognized priority for the C10 witness. -/
def c10Topic : Topic := ⟨"x", "X", "", "urgent", Option.none⟩

/-- Witness for C10 at a concrete queue: the only active topic has the
unrecognized priority "urgent" and is selected. -/
theorem C10_unrecognized_priority_witness :
    priorityRank "urgent" = 3 ∧
    priorityRank "low" < priorityRank "urgent" ∧
    (∀ u ∈ ([c10Topic] : List Topic),
      u.priority ≠ "high" ∧ u.priority ≠ "medium" ∧ u.priority ≠ "low") := by
  obtain ⟨h1, h2, h3⟩ := C10_unrecognized_priority "urgent" (by refine ⟨?_, ?_, ?_⟩ <;> decide)
  exact ⟨h1, h2, h3 [c10Topic] c10Topic rfl rfl⟩

/-! ## Reply flow (`reply_to_post.py`)

The flow resolves a post permalink, fetches the post and its author's
profile, generates reply text from an agent stream, and publishes a
threaded reply record.  Remote collaborators are passed in as an
environment of responses; the output is the flow's result together
with the trace of `create_record` calls issued and the trace of
attempt-log entries appended (the module's body contains no log write,
so the latter trace is always empty). -/

/-- Match a literal at the front of a character list, returning the
remainder. -/
def stripLit : List Char → List Char → Option (List Char)
  | [], s => Option.some s
  | _ :: _, [] => Option.none
  | p :: ps, c :: cs => if c = p then stripLit ps cs else Option.none

/-- Character predicate of the regex classes `[^/]`. -/
def notSlash (c : Char) : Bool := c ≠ '/'

/-- The regex `https://bsky\.app/profile/([^/]+)/post/([^/]+)` under
`re.match` semantics (`parse_post_url`, lines 32-38): anchored at the
start, free at the end.  The literal head is followed by a nonempty
captured run of non-slash characters (which greedy matching must end
at the first slash, since a literal slash follows), the literal
"/post/", and a second nonempty captured run of non-slash characters;
any trailing characters are ignored. -/
def parseUrlChars (url : List Char) : Option (List Char × List Char) :=
  match stripLit "https://bsky.app/profile/".data url with
  | Option.none => Option.none
  | Option.some rest =>
    let handle := rest.takeWhile notSlash
    if handle.isEmpty then Option.none
    else
      match stripLit "/post/".data (rest.dropWhile notSlash) with
      | Option.none => Option.none
      | Option.some rest2 =>
        let rkey := rest2.takeWhile notSlash
        if rkey.isEmpty then Option.none
        else Option.some (handle, rkey)

/-- `parse_post_url` (lines 32-38): extract (handle, rkey), or `none`
for the raised `ValueError("Invalid Bluesky post URL")`. -/
def parse_post_url (url : String) : Option (String × String) :=
  (parseUrlChars url.data).map (fun p => (⟨p.1⟩, ⟨p.2⟩))

/-- A {uri, cid} reference to a post. -/
structure ReplyRef where
  uri : String
  cid : String
  deriving Repr, DecidableEq

/-- The reply record body built at lines 131-139. -/
structure PostRecord where
  text : String
  reply_root : ReplyRef
  reply_parent : ReplyRef
  createdAt : String
  deriving Repr, DecidableEq

/-- One `com.atproto.repo.create_record` call (lines 141-145). -/
structure CreateRecordCall where
  repo : String
  collection : String
  record : PostRecord
  deriving Repr, DecidableEq

/-- The post snapshot returned by `fetch_post` (lines 59-65). -/
structure ReplyContext where
  uri : String
  cid : String
  author_handle : String
  author_display_name : String
  text : String
  deriving Repr, DecidableEq

/-- The flow's result dictionary (lines 150-154). -/
structure ReplyResult where
  success : Bool
  reply_url : String
  reply_text : String
  deriving Repr, DecidableEq

/-- The reply flow's external collaborators and agent stream.  Each
function field maps a request to the remote response (`.error` = the
call raised); `events` are the stream chunks delivered before the
stream ends, `streamFault` an optional transport fault raised after
them. -/
structure ReplyEnv where
  login : Except String Unit
  resolveHandle : String → Except String String
  getRecord : String → String → String → Except String (String × String)
  getProfile : String → Except String (String × Option String)
  createRecord : CreateRecordCall → Except String String
  events : List AgentEvent
  streamFault : Option String
  now : String
  meDid : String
  username : String

/-- `get_post_uri` (lines 40-44): resolve the handle to a DID and
build the AT-protocol resource identifier. -/
def get_post_uri (env : ReplyEnv) (handle rkey : String) : Except String String :=
  match env.resolveHandle handle with
  | .error e => .error e
  | .ok did => .ok ("at://" ++ did ++ "/app.bsky.feed.post/" ++ rkey)

/-- Python `s.replace(pat, '')` for a nonempty literal pattern:
leftmost non-overlapping occurrences are removed; the fuel argument
(instantiated with the input length) bounds the recursion. -/
def replaceAllFuel (pat : List Char) : Nat → List Char → List Char
  | _, [] => []
  | 0, l => l
  | n + 1, c :: cs =>
    match stripLit pat (c :: cs) with
    | Option.some rest => replaceAllFuel pat n rest
    | Option.none => c :: replaceAllFuel pat n cs

/-- Python `s.replace(pat, '')`. -/
def removeAll (pat : List Char) (l : List Char) : List Char :=
  replaceAllFuel pat l.length l

/-- Python `s.split('/')` (always returns at least one piece). -/
def splitSlash : List Char → List (List Char)
  | [] => [[]]
  | c :: cs =>
    if c = '/' then [] :: splitSlash cs
    else
      match splitSlash cs with
      | [] => [[c]]
      | p :: ps => (c :: p) :: ps

/-- Python `a or b` on a string-or-None value: the fallback replaces a
falsy (`None` or empty) value. -/
def pyOrStr (a : Option String) (b : String) : String :=
  match a with
  | Option.none => b
  | Option.some s => if s = "" then b else s

/-- `fetch_post` (lines 46-65): split the resource identifier into
`parts[0..2]` (an `IndexError` if fewer than three pieces), fetch the
record and the author profile, and build the snapshot
(`display_name or handle` for the display name). -/
def fetch_post (env : ReplyEnv) (post_uri : String) : Except String ReplyContext :=
  match splitSlash (removeAll "at://".data post_uri.data) with
  | repo :: collection :: rkey :: _ =>
    match env.getRecord ⟨repo⟩ ⟨collection⟩ ⟨rkey⟩ with
    | .error e => .error e
    | .ok rec =>
      match env.getProfile ⟨repo⟩ with
      | .error e => .error e
      | .ok prof =>
        .ok { uri := post_uri, cid := rec.1,
              author_handle := prof.1,
              author_display_name := pyOrStr prof.2 prof.1,
              text := rec.2 }
  | _ => .error "IndexError"

/-- `response.uri.split('/')[-1]` (line 147). -/
def lastSegment (uri : String) : String :=
  ⟨(splitSlash uri.data).getLastD []⟩

/-- The record-creation request built at lines 131-145: the record's
`reply.root` and `reply.parent` are both `{post_data.uri,
post_data.cid}`, `createdAt` is the formatted UTC timestamp, and the
call targets the logged-in account's repo and the post collection. -/
def mkReplyCall (env : ReplyEnv) (post_data : ReplyContext) (reply_text : String) :
    CreateRecordCall :=
  { repo := env.meDid, collection := "app.bsky.feed.post",
    record :=
      { text := reply_text
        reply_root := { uri := post_data.uri, cid := post_data.cid }
        reply_parent := { uri := post_data.uri, cid := post_data.cid }
        createdAt := env.now } }

/-- `reply_to_post` (lines 67-154).  Returns the result (or the raised
exception) together with the `create_record` calls issued and the
attempt-log entries appended; the function body writes no attempt-log
entry, so that trace is always empty. -/
def reply_to_post (env : ReplyEnv) (post_url : String) :
    Except String ReplyResult × List CreateRecordCall × List String :=
  match env.login with
  | .error e => (.error e, [], [])
  | .ok _ =>
    match parse_post_url post_url with
    | Option.none => (.error "Invalid Bluesky post URL", [], [])
    | Option.some (handle, rkey) =>
      match get_post_uri env handle rkey with
      | .error e => (.error e, [], [])
      | .ok post_uri =>
        match fetch_post env post_uri with
        | .error e => (.error e, [], [])
        | .ok post_data =>
          match env.streamFault with
          | Option.some e => (.error e, [], [])
          | Option.none =>
            let reply_text := pyStrip (String.join (assistantTexts env.events))
            if reply_text = "" then
              (.error "Agent did not generate reply", [], [])
            else
              match env.createRecord (mkReplyCall env post_data reply_text) with
              | .error e => (.error e, [mkReplyCall env post_data reply_text], [])
              | .ok uri =>
                (.ok { success := true
                       reply_url := "https://bsky.app/profile/" ++ env.username ++
                         "/post/" ++ lastSegment uri
                       reply_text := reply_text },
                 [mkReplyCall env post_data reply_text], [])

/-! ## Claims C5 and C6 -/

/-- C5. Whenever the reply flow succeeds it has issued exactly one
record-creation call, and the submitted record's reply references set
root and parent to the same target — the {uri, cid} of the post that
was resolved and fetched for the given permalink (only flat,
non-nested replies are produced). -/
theorem C5_reply_threading (env : ReplyEnv) (post_url : String)
    (res : ReplyResult) (calls : List CreateRecordCall) (logs : List String)
    (h : reply_to_post env post_url = (.ok res, calls, logs)) :
    ∃ c, calls = [c] ∧
      c.record.reply_root = c.record.reply_parent ∧
      ∃ handle rkey post_uri post_data,
        parse_post_url post_url = Option.some (handle, rkey) ∧
        get_post_uri env handle rkey = .ok post_uri ∧
        fetch_post env post_uri = .ok post_data ∧
        c.record.reply_root = ⟨post_data.uri, post_data.cid⟩ := by
  unfold reply_to_post at h
  cases hl : env.login with
  | error e => simp only [hl] at h; exact absurd h (by simp)
  | ok u =>
    simp only [hl] at h
    cases hp : parse_post_url post_url with
    | none => simp only [hp] at h; exact absurd h (by simp)
    | some pr =>
      obtain ⟨handle, rkey⟩ := pr
      simp only [hp] at h
      cases hu : get_post_uri env handle rkey with
      | error e => simp only [hu] at h; exact absurd h (by simp)
      | ok post_uri =>
        simp only [hu] at h
        cases hf : fetch_post env post_uri with
        | error e => simp only [hf] at h; exact absurd h (by simp)
        | ok post_data =>
          simp only [hf] at h
          cases hsf : env.streamFault with
          | some e => simp only [hsf] at h; exact absurd h (by simp)
          | none =>
            simp only [hsf] at h
            by_cases hrt : pyStrip (String.join (assistantTexts env.events)) = ""
            · rw [if_pos hrt] at h
              exact absurd h (by simp)
            · rw [if_neg hrt] at h
              cases hc : env.createRecord
                  (mkReplyCall env post_data (pyStrip (String.join (assistantTexts env.events)))) with
              | error e => rw [hc] at h; exact absurd h (by simp)
              | ok uri =>
                rw [hc] at h
                injection h with h1 h23
                injection h23 with h2 h3
                refine ⟨mkReplyCall env post_data (pyStrip (String.join (assistantTexts env.events))),
                  h2.symm, rfl, handle, rkey, post_uri, post_data, rfl, hu, hf, rfl⟩

/-- Environment for the reply-flow witnesses: every remote call
succeeds and the agent stream produces one assistant message. -/
def exEnv : ReplyEnv :=
  { login := .ok ()
    resolveHandle := fun _ => .ok "did:plc:abc"
    getRecord := fun _ _ _ => .ok ("cid123", "original post text")
    getProfile := fun _ => .ok ("alice.example", Option.some "Alice")
    createRecord := fun _ => .ok "at://did:plc:me/app.bsky.feed.post/xyz789"
    events := [AgentEvent.assistantText "nice post!"]
    streamFault := Option.none
    now := "2026-10-12T00:00:00Z"
    meDid := "did:plc:me"
    username := "gauge.example" }

/-- Witness for C5: a fully successful concrete reply run issues one
call whose reply references both point at the fetched post. -/
theorem C5_reply_threading_witness :
    ∃ res calls logs,
      reply_to_post exEnv "https://bsky.app/profile/alice.example/post/xyz123" =
        (.ok res, calls, logs) ∧
      ∃ c, calls = [c] ∧
        c.record.reply_root = c.record.reply_parent ∧
        ∃ handle rkey post_uri post_data,
          parse_post_url "https://bsky.app/profile/alice.example/post/xyz123" =
            Option.some (handle, rkey) ∧
          get_post_uri exEnv handle rkey = .ok post_uri ∧
          fetch_post exEnv post_uri = .ok post_data ∧
          c.record.reply_root = ⟨post_data.uri, post_data.cid⟩ :=
  ⟨_, _, _, rfl, C5_reply_threading exEnv _ _ _ _ rfl⟩

/-- C6. If the flow reaches generation (login, resolution and fetch
succeeded, the stream completed) and the agent's reply text is empty
after stripping, the flow fails with the empty-generation error
("Agent did not generate reply") and issues zero record-creation
calls: no fallback text is substituted and nothing is published. -/
theorem C6_empty_generation (env : ReplyEnv) (post_url : String)
    (handle rkey post_uri : String) (post_data : ReplyContext)
    (hlogin : env.login = .ok ())
    (hparse : parse_post_url post_url = Option.some (handle, rkey))
    (huri : get_post_uri env handle rkey = .ok post_uri)
    (hfetch : fetch_post env post_uri = .ok post_data)
    (hfault : env.streamFault = Option.none)
    (hempty : pyStrip (String.join (assistantTexts env.events)) = "") :
    reply_to_post env post_url = (.error "Agent did not generate reply", [], []) := by
  simp [reply_to_post, hlogin, hparse, huri, hfetch, hfault, hempty]

/-- Reply-flow environment whose agent stream is whitespace only. -/
def c6Env : ReplyEnv := { exEnv with events := [AgentEvent.assistantText "  "] }

/-- Witness for C6: a concrete run in which the agent produced only
whitespace fails with the empty-generation error and no calls. -/
theorem C6_empty_generation_witness :
    reply_to_post c6Env "https://bsky.app/profile/alice.example/post/xyz123" =
      (.error "Agent did not generate reply", [], []) :=
  C6_empty_generation c6Env "https://bsky.app/profile/alice.example/post/xyz123"
    "alice.example" "xyz123" "at://did:plc:abc/app.bsky.feed.post/xyz123"
    { uri := "at://did:plc:abc/app.bsky.feed.post/xyz123", cid := "cid123",
      author_handle := "alice.example", author_display_name := "Alice",
      text := "original post text" }
    rfl rfl rfl rfl rfl rfl

/-! ## Claim C7: permalink parsing -/

theorem stripLit_append : ∀ (p rest : List Char), stripLit p (p ++ rest) = Option.some rest := by
  intro p
  induction p with
  | nil => intro rest; rfl
  | cons c cs ih => intro rest; simp [stripLit, ih]

theorem stripLit_some : ∀ (p s rest : List Char),
    stripLit p s = Option.some rest → s = p ++ rest := by
  intro p
  induction p with
  | nil =>
    intro s rest h
    simp only [stripLit, Option.some.injEq] at h
    simp [h]
  | cons c cs ih =>
    intro s rest h
    cases s with
    | nil => exact absurd h (by simp [stripLit])
    | cons a as =>
      simp only [stripLit] at h
      by_cases hac : a = c
      · rw [if_pos hac] at h
        subst hac
        rw [List.cons_append, ih as rest h]
      · rw [if_neg hac] at h
        cases h

theorem takeWhile_all (p : Char → Bool) :
    ∀ (l : List Char), (∀ c ∈ l, p c = true) → l.takeWhile p = l := by
  intro l
  induction l with
  | nil => intro _; rfl
  | cons a as ih =>
    intro hall
    rw [List.takeWhile_cons, if_pos (hall a (by simp)), ih (fun c hc => hall c (by simp [hc]))]

theorem takeWhile_all_append (p : Char → Bool) :
    ∀ (h t : List Char), (∀ c ∈ h, p c = true) →
      (h ++ t).takeWhile p = h ++ t.takeWhile p := by
  intro h
  induction h with
  | nil => intro t _; rfl
  | cons a as ih =>
    intro t hall
    rw [List.cons_append, List.takeWhile_cons, if_pos (hall a (by simp)),
      ih t (fun c hc => hall c (by simp [hc])), List.cons_append]

theorem dropWhile_all_append (p : Char → Bool) :
    ∀ (h t : List Char), (∀ c ∈ h, p c = true) →
      (h ++ t).dropWhile p = t.dropWhile p := by
  intro h
  induction h with
  | nil => intro t _; rfl
  | cons a as ih =>
    intro t hall
    rw [List.cons_append, List.dropWhile_cons, if_pos (hall a (by simp)),
      ih t (fun c hc => hall c (by simp [hc]))]

theorem mem_takeWhile_pred (p : Char → Bool) :
    ∀ (l : List Char), ∀ c ∈ l.takeWhile p, p c = true := by
  intro l
  induction l with
  | nil => intro c hc; cases hc
  | cons a as ih =>
    intro c hc
    rw [List.takeWhile_cons] at hc
    by_cases hp : p a = true
    · rw [if_pos hp] at hc
      rcases List.mem_cons.mp hc with hc | hc
      · subst hc; exact hp
      · exact ih c hc
    · rw [if_neg hp] at hc
      cases hc

/-- The claim's fixed URL shape as a whole-string match:
`https://bsky.app/profile/` ++ handle ++ `/post/` ++ rkey, with handle
and rkey nonempty, slash-free, and nothing following the record key. -/
def isExactShape (url : String) : Bool :=
  match stripLit "https://bsky.app/profile/".data url.data with
  | Option.none => false
  | Option.some rest =>
    let handle := rest.takeWhile notSlash
    if handle.isEmpty then false
    else
      match stripLit "/post/".data (rest.dropWhile notSlash) with
      | Option.none => false
      | Option.some rest2 => !rest2.isEmpty && rest2.all notSlash

/-- C7 (counterexample). The claim says every URL not of the fixed
shape fails with `InvalidReference`.  `parse_post_url` uses `re.match`,
which anchors only at the start: the URL below has a trailing segment
after the record key — so it is not of the fixed shape (the checker
transcribing the claimed shape rejects it, while accepting the claim's
example URL) — yet parsing succeeds instead of failing. -/
theorem C7_counterexample :
    parse_post_url "https://bsky.app/profile/alice.example/post/xyz123/extra" =
      Option.some ("alice.example", "xyz123") ∧
    isExactShape "https://bsky.app/profile/alice.example/post/xyz123/extra" = false ∧
    isExactShape "https://bsky.app/profile/alice.example/post/xyz123" = true :=
  ⟨rfl, rfl, rfl⟩

/-- C7 (amended). Resolve parses any URL that begins with the fixed
shape `https://bsky.app/profile/<handle>/post/<rkey>` and fails with
`InvalidReference` exactly when the URL does not begin with that
shape.  The success direction holds for an arbitrary trailing string:
for every nonempty slash-free handle and record key and every tail
whatsoever, parsing the shape followed by the tail succeeds, capturing
the handle and the maximal non-slash run as the record key (so the
given key extended by the tail's non-slash head; trailing characters
from the first slash of the tail on are ignored) — as on the example
URL, where the tail is empty.  Conversely every successful parse
decomposes its URL into the fixed shape followed by an arbitrary tail,
with the handle and record key nonempty and slash-free. -/
theorem C7_amended :
    parse_post_url "https://bsky.app/profile/alice.example/post/xyz123" =
      Option.some ("alice.example", "xyz123") ∧
    (∀ handle rkey tail : String, handle.data ≠ [] → rkey.data ≠ [] →
      (∀ c ∈ handle.data, notSlash c = true) → (∀ c ∈ rkey.data, notSlash c = true) →
      parse_post_url ("https://bsky.app/profile/" ++ handle ++ "/post/" ++ rkey ++ tail) =
        Option.some (handle, ⟨rkey.data ++ tail.data.takeWhile notSlash⟩)) ∧
    (∀ url h r : String, parse_post_url url = Option.some (h, r) →
      h.data ≠ [] ∧ r.data ≠ [] ∧
      (∀ c ∈ h.data, notSlash c = true) ∧ (∀ c ∈ r.data, notSlash c = true) ∧
      ∃ tail, url.data =
        "https://bsky.app/profile/".data ++ h.data ++ "/post/".data ++ r.data ++ tail) := by
  refine ⟨rfl, ?_, ?_⟩
  · intro handle rkey tail hh hr hhs hrs
    have hdata : ("https://bsky.app/profile/" ++ handle ++ "/post/" ++ rkey ++ tail).data =
        "https://bsky.app/profile/".data ++
          (handle.data ++ ('/' :: ('p' :: 'o' :: 's' :: 't' :: '/' :: (rkey.data ++ tail.data)))) := by
      simp [String.data_append]
    have htake : (handle.data ++
          ('/' :: ('p' :: 'o' :: 's' :: 't' :: '/' :: (rkey.data ++ tail.data)))).takeWhile notSlash
        = handle.data := by
      rw [takeWhile_all_append notSlash handle.data _ hhs, List.takeWhile_cons]
      simp [notSlash]
    have hdrop : (handle.data ++
          ('/' :: ('p' :: 'o' :: 's' :: 't' :: '/' :: (rkey.data ++ tail.data)))).dropWhile notSlash
        = '/' :: ('p' :: 'o' :: 's' :: 't' :: '/' :: (rkey.data ++ tail.data)) := by
      rw [dropWhile_all_append notSlash handle.data _ hhs, List.dropWhile_cons]
      simp [notSlash]
    have hstrip : stripLit "/post/".data
          ('/' :: ('p' :: 'o' :: 's' :: 't' :: '/' :: (rkey.data ++ tail.data))) =
        Option.some (rkey.data ++ tail.data) :=
      stripLit_append "/post/".data (rkey.data ++ tail.data)
    have hhe : handle.data.isEmpty = false := by
      cases hd : handle.data with
      | nil => exact absurd hd hh
      | cons a as => rfl
    have hrk : (rkey.data ++ tail.data).takeWhile notSlash =
        rkey.data ++ tail.data.takeWhile notSlash :=
      takeWhile_all_append notSlash rkey.data tail.data hrs
    have hre : (rkey.data ++ tail.data.takeWhile notSlash).isEmpty = false := by
      cases hd : rkey.data with
      | nil => exact absurd hd hr
      | cons a as => rfl
    unfold parse_post_url parseUrlChars
    rw [hdata]
    simp only [stripLit_append, htake, hdrop, hstrip, hrk, hhe, hre]
    simp

  · intro url h r hparse
    unfold parse_post_url parseUrlChars at hparse
    cases hs : stripLit "https://bsky.app/profile/".data url.data with
    | none =>
      simp only [hs, Option.map] at hparse
      exact absurd hparse (by simp)
    | some rest =>
      simp only [hs] at hparse
      by_cases hhe : (rest.takeWhile notSlash).isEmpty = true
      · rw [if_pos hhe] at hparse
        simp at hparse
      · rw [if_neg hhe] at hparse
        cases hs2 : stripLit "/post/".data (rest.dropWhile notSlash) with
        | none =>
          simp only [hs2, Option.map] at hparse
          exact absurd hparse (by simp)
        | some rest2 =>
          simp only [hs2] at hparse
          by_cases hre : (rest2.takeWhile notSlash).isEmpty = true
          · rw [if_pos hre] at hparse
            simp at hparse
          · rw [if_neg hre] at hparse
            simp only [Option.map] at hparse
            injection hparse with h1
            have hh : h = ⟨rest.takeWhile notSlash⟩ := by
              have := congrArg Prod.fst h1
              exact this.symm
            have hr : r = ⟨rest2.takeWhile notSlash⟩ := by
              have := congrArg Prod.snd h1
              exact this.symm
            subst hh
            subst hr
            have hnonempty : ∀ (l : List Char), l.isEmpty ≠ true → l ≠ [] := by
              intro l hl hnil
              exact hl (by rw [hnil]; rfl)
            refine ⟨hnonempty _ hhe, hnonempty _ hre, mem_takeWhile_pred notSlash rest,
              mem_takeWhile_pred notSlash rest2, rest2.dropWhile notSlash, ?_⟩
            have h1 : url.data = "https://bsky.app/profile/".data ++ rest :=
              stripLit_some _ _ _ hs
            have h2 : rest.takeWhile notSlash ++ rest.dropWhile notSlash = rest :=
              List.takeWhile_append_dropWhile notSlash rest
            have h3 : rest.dropWhile notSlash = "/post/".data ++ rest2 :=
              stripLit_some _ _ _ hs2
            have h4 : rest2.takeWhile notSlash ++ rest2.dropWhile notSlash = rest2 :=
              List.takeWhile_append_dropWhile notSlash rest2
            rw [h1]
            conv_lhs => rw [← h2, h3, ← h4]
            simp [List.append_assoc]

/-- Witness for the universal part of C7 (amended) at a concrete
handle, record key and nonempty trailing segment: the URL beginning
with the fixed shape and continuing with "/extra" parses successfully,
ignoring the tail. -/
theorem C7_amended_witness :
    parse_post_url ("https://bsky.app/profile/" ++ "alice.example" ++ "/post/" ++
        "xyz123" ++ "/extra") =
      Option.some ("alice.example", "xyz123") := by
  have h := C7_amended.2.1 "alice.example" "xyz123" "/extra"
    (by decide) (by decide) (by decide) (by decide)
  exact h.trans (by rfl)

/-! ## Claim C4: attempt logging

`generate_autonomous_post` and `conduct_research` are modelled end to
end here as functions from the delivered stream (events, plus an
optional transport fault raised after them) to the returned result (or
raised exception) together with the attempt-log entries appended by
`log_post_attempt` / `log_research`. -/

/-- One line of `autonomous_posts.log` (`log_post_attempt`, lines
48-61, minus the wall-clock timestamp). -/
structure PostLogEntry where
  success : Bool
  topic : String
  content : Option PyVal
  error : Option String

/-- `generate_autonomous_post` (lines 64-190).  The collection loop
may raise while extracting a publish call's argument (`IndexError` /
`TypeError` from `[0]`, line 137); a transport fault raises after the
delivered events; and when `posted` is true with `post_content = None`
the success-logging f-string raises (`post_content[:100]` on `None`,
line 169).  Every path, success or failure, appends exactly one log
entry: the `except` clause (lines 183-190) logs the failure and
re-raises, the success path logs the outcome (lines 175-179). -/
def generate_autonomous_post (topicPrompt : String) (dryRun : Bool)
    (events : List AgentEvent) (fault : Option String) :
    Except String AgentOutcome × List PostLogEntry :=
  match runAgg publishToolName initAggState events with
  | Option.none =>
    (.error "IndexError",
     [{ success := false, topic := topicPrompt, content := Option.none,
        error := Option.some "IndexError" }])
  | Option.some st =>
    match fault with
    | Option.some e =>
      (.error e,
       [{ success := false, topic := topicPrompt, content := Option.none,
          error := Option.some e }])
    | Option.none =>
      if st.posted && !(pySliceable st.postContent) then
        (.error "TypeError",
         [{ success := false, topic := topicPrompt, content := Option.none,
            error := Option.some "TypeError" }])
      else
        (.ok (mkOutcome st dryRun),
         [{ success := (mkOutcome st dryRun).success, topic := topicPrompt,
            content := Option.some (mkOutcome st dryRun).content, error := Option.none }])

/-- One line of `research.log` (`log_research`, lines 147-161, minus
the wall-clock timestamp). -/
structure ResearchLogEntry where
  topic : String
  topic_id : String
  success : Bool
  findings_length : Nat
  error : Option String
  deriving Repr, DecidableEq

/-- The collection state of `conduct_research`'s loop (lines 209-232):
counters per recognized call name and the assistant texts. -/
structure ResearchCounts where
  searches : Nat
  archival : Nat
  blog : Bool
  toolCalls : Nat
  texts : List String

/-- Initial research loop state. -/
def initResearchCounts : ResearchCounts := ⟨0, 0, false, 0, []⟩

/-- One iteration of `conduct_research`'s loop: count
`function_call_message` chunks by name, collect assistant messages. -/
def researchStep (st : ResearchCounts) : AgentEvent → ResearchCounts
  | .functionCall name =>
    { st with
      toolCalls := st.toolCalls + 1
      searches := (if name = "web_search" then st.searches + 1 else st.searches)
      archival := (if name = "archival_memory_insert" then st.archival + 1 else st.archival)
      blog := (st.blog || name = "create_whitewind_blog_post") }
  | .assistantText t => { st with texts := st.texts ++ [t] }
  | _ => st

/-- The research result dictionary (lines 240-247). -/
structure ResearchOutcome where
  success : Bool
  findings : String
  searches : Nat
  archival_entries : Nat
  blog_created : Bool
  tool_calls : Nat
  deriving Repr, DecidableEq

/-- `findings` accumulation (lines 234-238): each assistant text
followed by a newline. -/
def findingsOf (texts : List String) : String :=
  String.join (texts.map (fun t => t ++ "\n"))

/-- `conduct_research` (lines 164-262): on a transport fault the
`except` clause logs a failure entry (findings length 0) and
re-raises; otherwise the loop completes, the topic's
`last_researched` is set to the current timestamp, and a success
entry is logged with the unstripped findings length.  Exactly one
entry either way. -/
def conduct_research (topic : Topic) (now : String)
    (events : List AgentEvent) (fault : Option String) :
    Except String (ResearchOutcome × Topic) × List ResearchLogEntry :=
  match fault with
  | Option.some e =>
    (.error e, [⟨topic.title, topic.id, false, 0, Option.some e⟩])
  | Option.none =>
    let st := events.foldl researchStep initResearchCounts
    let findings := findingsOf st.texts
    let topic' := { topic with last_researched := Option.some now }
    (.ok (⟨true, pyStrip findings, st.searches, st.archival, st.blog, st.toolCalls⟩, topic'),
     [⟨topic.title, topic.id, true, findings.length, Option.none⟩])

/-- C4 (counterexample). The claim says every invocation attempt —
post, research and reply — appends exactly one entry to its attempt
log.  The reply flow's body contains no log write at all: a complete,
successful reply attempt appends zero entries. -/
theorem C4_counterexample :
    ((reply_to_post exEnv "https://bsky.app/profile/alice.example/post/xyz123").2.2).length = 0 ∧
    (∃ res calls,
      reply_to_post exEnv "https://bsky.app/profile/alice.example/post/xyz123" =
        (.ok res, calls, [])) := by
  exact ⟨rfl, _, _, rfl⟩

/-- C4 (amended). Every post attempt and every research attempt,
whether it succeeds or raises, appends exactly one entry to its
attempt log before control returns; the reply flow appends no
attempt-log entry on any path. -/
theorem C4_amended :
    (∀ (topicPrompt : String) (dryRun : Bool) (events : List AgentEvent) (fault : Option String),
      (generate_autonomous_post topicPrompt dryRun events fault).2.length = 1) ∧
    (∀ (topic : Topic) (now : String) (events : List AgentEvent) (fault : Option String),
      (conduct_research topic now events fault).2.length = 1) ∧
    (∀ (env : ReplyEnv) (post_url : String),
      (reply_to_post env post_url).2.2.length = 0) := by
  refine ⟨?_, ?_, ?_⟩
  · intro topicPrompt dryRun events fault
    unfold generate_autonomous_post
    repeat' split
    all_goals rfl
  · intro topic now events fault
    cases fault with
    | some e => rfl
    | none => rfl
  · intro env post_url
    unfold reply_to_post
    repeat' split
    all_goals try rfl
    all_goals (simp only []; split; all_goals try rfl)
    all_goals
      cases env.createRecord
        (mkReplyCall env ‹ReplyContext› (pyStrip (String.join (assistantTexts env.events)))) <;> rfl

end Machine2
